import Mathlib

/-!
Verification development for the `returnName` NLP agent
(`src/nlp_agent.py`).

The program chains two external NLP inference capabilities (a zero-shot
classifier and an extractive question answerer) through a declarative
slot-extraction pipeline.  The two capabilities are modelled as an
abstract `Oracle` (fixed capability outputs); everything else is a
shallow embedding of the Python source:

* Python dicts of parsed items become insertion-ordered association
  lists (`SlotSet`), with `setKey` mirroring `d[k] = v` (update in
  place, else append) and `discard_items` mirroring the dict
  comprehension filter.
* Python `None` results of extractors become `Option`; Python
  exceptions (`IndexError` on `[0]` of an empty list, `KeyError` on a
  missing dict key, `AttributeError` on a missing method) become the
  `Except PyErr` monad.
* `float` values parsed from decimal strings are modelled as exact
  rationals in lowest terms (`Frac`, built only through `mkFrac`); the
  inputs exercised here have short decimal expansions for which Python
  float repr agrees with the exact decimal rendering produced by
  `formatNum`.
* The regex `(?<![a-zA-Z:])[-+]?\d*\.?\d+` used by `amount_breakdown`
  is embedded by `findNumber`: scan positions left to right, reject a
  start position whose preceding character is a letter or a colon
  (the lookbehind), and at an accepted position match greedily
  `digits [ '.' digits ]` with an optional leading sign, exactly the
  strings this pattern can match.
* Python `str.split()` (split on whitespace runs, dropping empty
  tokens) is embedded by `pySplit`.
-/

namespace NLP

/-- ASCII digit test, the fragment of Python `isdigit` exercised here. -/
def pyIsDigit (c : Char) : Bool := 48 ≤ c.toNat && c.toNat ≤ 57

/-- ASCII letter test: the fragment of Python
`c.isalnum() and not c.isdigit()` (and of the regex class `[a-zA-Z]`)
exercised by the ASCII inputs of this program. -/
def pyIsAlpha (c : Char) : Bool :=
  (65 ≤ c.toNat && c.toNat ≤ 90) || (97 ≤ c.toNat && c.toNat ≤ 122)

/-- Python whitespace for `str.split()`. -/
def pyIsSpace (c : Char) : Bool :=
  c = ' ' || c = '\t' || c = '\n' || c = '\r' || c = '\x0b' || c = '\x0c'

/-- One step of `str.split()`, consuming characters from the right:
accumulate non-space characters into the current token, flush the token
at a space. -/
def pySplitStep (c : Char) (acc : List Char × List String) : List Char × List String :=
  if pyIsSpace c then
    if acc.1 = [] then ([], acc.2) else ([], String.mk acc.1 :: acc.2)
  else (c :: acc.1, acc.2)

/-- Python `s.split()`: tokens separated by whitespace runs, no empty
tokens. -/
def pySplit (s : String) : List String :=
  let r := s.data.foldr pySplitStep ([], [])
  if r.1 = [] then r.2 else String.mk r.1 :: r.2

/-- Python exceptions that the embedded code can raise. -/
inductive PyErr where
  | indexError
  | keyError
  | typeError
  | attributeError
deriving DecidableEq

/-- Euclidean gcd with explicit fuel, so that it evaluates inside the
kernel; `natGcd` supplies enough fuel for every input. -/
def gcdFuel : ℕ → ℕ → ℕ → ℕ
  | 0, _, n => n
  | fuel + 1, m, n => if m = 0 then n else gcdFuel fuel (n % m) m

/-- Greatest common divisor (kernel-computable). -/
def natGcd (m n : ℕ) : ℕ := gcdFuel (m + n + 1) m n

/-- An exact rational, used to model the Python floats that
`amount_breakdown` produces from decimal strings.  Built only through
`mkFrac`, hence always in lowest terms. -/
structure Frac where
  num : ℤ
  den : ℕ
deriving DecidableEq

/-- Normalise `n / d` to lowest terms. -/
def mkFrac (n : ℤ) (d : ℕ) : Frac :=
  if d = 0 then ⟨0, 0⟩
  else
    let g := natGcd n.natAbs d
    ⟨n / (g : ℤ), d / g⟩

/-- Negation of an exact rational (a normalised input stays
normalised). -/
def fracNeg (f : Frac) : Frac := ⟨-f.num, f.den⟩

/-- Values stored in the parsed-items dict: strings, booleans, floats
(as exact rationals) and the `(number, unit)` tuple produced by
`amount_breakdown`. -/
inductive Value where
  | str : String → Value
  | bool : Bool → Value
  | num : Frac → Value
  | pair : Frac → String → Value
deriving DecidableEq

/-- The parsed-items dict: an insertion-ordered association list with
unique keys, as built by the operations below. -/
abbrev SlotSet := List (String × Value)

/-- Dict lookup `items[k]` (as an `Option`). -/
def lookupKey : SlotSet → String → Option Value
  | [], _ => none
  | (k', v) :: rest, k => if k' = k then some v else lookupKey rest k

/-- Dict membership `k in items`. -/
def hasKey (items : SlotSet) (k : String) : Bool :=
  (lookupKey items k).isSome

/-- Dict assignment `items[k] = v`: update in place if the key exists,
else append, preserving Python dict insertion order. -/
def setKey : SlotSet → String → Value → SlotSet
  | [], k, v => [(k, v)]
  | (k', v') :: rest, k, v =>
    if k' = k then (k', v) :: rest else (k', v') :: setKey rest k v

/-- The smallest exponent `k ≤ 64` with `d ∣ 10 ^ k`, when one exists.
Every denominator produced by decimal parsing has one. -/
def pow10Exp (d : ℕ) : Option ℕ :=
  (List.range 65).find? (fun k => 10 ^ k % d = 0)

/-- Drop trailing zero characters, keeping at least one digit. -/
def dropTrailingZeros (l : List Char) : List Char :=
  let r := l.reverse.dropWhile (fun c => c = '0')
  if r = [] then ['0'] else r.reverse

/-- Render a rational from decimal parsing the way Python renders the
corresponding float in an f-string: minimal decimal digits, always at
least one fractional digit (`0.2`, `1.0`, `-3.5`). -/
def formatNum (q : Frac) : String :=
  match pow10Exp q.den with
  | none => toString q.num ++ "/" ++ toString q.den
  | some k0 =>
    let k := max k0 1
    let scaled := q.num.natAbs * 10 ^ k / q.den
    let ip := scaled / 10 ^ k
    let fp := scaled % 10 ^ k
    let fs := toString fp
    let fracDigits := dropTrailingZeros (List.replicate (k - fs.length) '0' ++ fs.data)
    (if q.num < 0 then "-" else "") ++ toString ip ++ "." ++ String.mk fracDigits

/-- Python f-string rendering of a stored value. -/
def render : Value → String
  | .str s => s
  | .num q => formatNum q
  | .bool b => if b then "True" else "False"
  | .pair q u => "(" ++ formatNum q ++ ", " ++ u ++ ")"

/-- Fixed outputs of the two external inference capabilities, i.e. the
`NLPModelsHelper` methods `zero_shot`, `zero_shot_multiple` and
`question_answerer` with the models held fixed. -/
structure Oracle where
  zeroShot : String → String → Bool
  zeroShotMultiple : String → List String → String
  questionAnswerer : String → String → String

/-- `self.elements` of `NLPStructuralField`. -/
def elements : List String := ["wall", "slab", "beam", "column"]

/-- `self.directions` of `NLPStructuralField`. -/
def directions : List String := ["up", "down", "front", "back", "left", "right"]

/-- Greedy match of `\d*\.?\d+` at the head of `l`, giving the matched
characters: a digit run, optionally followed by a dot and another digit
run; or dot-digits when there are no leading digits. -/
def matchBody (l : List Char) : Option (List Char) :=
  let a := l.takeWhile pyIsDigit
  let rest := l.dropWhile pyIsDigit
  if a.isEmpty then
    match rest with
    | '.' :: rest2 =>
      let b := rest2.takeWhile pyIsDigit
      if b.isEmpty then none else some ('.' :: b)
    | _ => none
  else
    match rest with
    | '.' :: rest2 =>
      let b := rest2.takeWhile pyIsDigit
      if b.isEmpty then some a else some (a ++ '.' :: b)
    | _ => some a

/-- Greedy match of `[-+]?\d*\.?\d+` at the head of `l`. -/
def matchNumAt (l : List Char) : Option (List Char) :=
  match l with
  | [] => none
  | c :: rest =>
    if c = '+' || c = '-' then (matchBody rest).map (fun m => c :: m)
    else matchBody l

/-- Left-to-right scan for the first regex match; `prev` is the
character before the current position, used for the
`(?<![a-zA-Z:])` lookbehind. -/
def findNumberAux : Option Char → List Char → Option (List Char)
  | _, [] => none
  | prev, c :: rest =>
    let lookOk := match prev with
      | none => true
      | some p => !(pyIsAlpha p || p = ':')
    match if lookOk then matchNumAt (c :: rest) else none with
    | some m => some m
    | none => findNumberAux (some c) rest

/-- First match of `(?<![a-zA-Z:])[-+]?\d*\.?\d+` in `s`
(`re.findall(...)[0]`), if any. -/
def findNumber (s : String) : Option (List Char) :=
  findNumberAux none s.data

/-- Value of a digit run. -/
def digitsToNat (l : List Char) : ℕ :=
  l.foldl (fun acc c => 10 * acc + (c.toNat - 48)) 0

/-- Exact value of the unsigned decimal `digits [ '.' digits ]`. -/
def parseUnsigned (l : List Char) : Frac :=
  let a := l.takeWhile pyIsDigit
  let rest := l.dropWhile pyIsDigit
  match rest with
  | '.' :: b =>
    mkFrac ((digitsToNat a : ℤ) * 10 ^ b.length + (digitsToNat b : ℤ)) (10 ^ b.length)
  | _ => mkFrac (digitsToNat a : ℤ) 1

/-- Exact value of a matched number string (Python `float(number)`,
modelled exactly). -/
def parseNumChars (l : List Char) : Frac :=
  match l with
  | '-' :: rest => fracNeg (parseUnsigned rest)
  | '+' :: rest => parseUnsigned rest
  | _ => parseUnsigned l

/-- `NLPField.amount_breakdown`: first regex number in the string (else
`None`), unit = all letters of the string, defaulting to `"m"`. -/
def amount_breakdown (amount : String) : Option (Frac × String) :=
  match findNumber amount with
  | none => none
  | some numChars =>
    let unit := String.mk (amount.data.filter pyIsAlpha)
    some (parseNumChars numChars, if unit = "" then "m" else unit)

/-- `NLPField.which_element`: argmax over the element vocabulary,
accepted only if the chosen label itself passes the relevance check. -/
def which_element (o : Oracle) (prompt : String) : Option String :=
  if o.zeroShot prompt (o.zeroShotMultiple prompt elements) = true
  then some (o.zeroShotMultiple prompt elements) else none

/-- `NLPField.element_name`: ask for the name of the element; empty
answer means unresolved; otherwise take the first whitespace token,
raising `IndexError` when the split yields no token. -/
def element_name (o : Oracle) (prompt element : String) : Except PyErr (Option String) :=
  if o.questionAnswerer ("Which is the name of the " ++ element ++ "?") prompt = ""
  then .ok none
  else
    match pySplit (o.questionAnswerer ("Which is the name of the " ++ element ++ "?") prompt) with
    | [] => .error .indexError
    | t :: _ => .ok (some t)

/-- `NLPField.found_inside`: relevance of the prompt to the field name
or any of its other names. -/
def found_inside (o : Oracle) (name : String) (other_names : List String)
    (prompt : String) : Bool :=
  if o.zeroShot prompt name then true
  else other_names.any (fun n => o.zeroShot prompt n)

/-- The extractor functions of the structural recipe. -/
inductive StepFunc where
  | whichElement
  | elementName
  | actionF
  | overallDirection
  | directionF
  | amountF
  | numberUnit
deriving DecidableEq

/-- Apply an extractor to its resolved argument values (`func(*args)`).
`none` in the result is Python `None` (unresolved); an argument shape
the function cannot consume is a `TypeError`, never reached by the
recipe. -/
def applyFunc (o : Oracle) : StepFunc → List Value → Except PyErr (Option Value)
  | .whichElement, [.str prompt] => .ok ((which_element o prompt).map .str)
  | .elementName, [.str prompt, el] =>
    (element_name o prompt (render el)).map (fun r => r.map .str)
  | .actionF, [.str prompt, el, en] =>
    .ok (some (.str (o.questionAnswerer
      ("What should we do with the " ++ render el ++ " " ++ render en ++ "?") prompt)))
  | .overallDirection, [.str prompt] =>
    .ok (some (.str (o.questionAnswerer "To where?" prompt)))
  | .directionF, [.str t] => .ok (some (.str (o.zeroShotMultiple t directions)))
  | .amountF, [.str t] => .ok (some (.str (o.questionAnswerer "By how much?" t)))
  | .numberUnit, [.str a] =>
    .ok ((amount_breakdown a).map (fun p => .pair p.1 p.2))
  | _, _ => .error .typeError

/-- One entry of the recipe dict: step name, extractor, argument slot
names (normalised to a list), optional readable name. -/
structure Step where
  name : String
  func : StepFunc
  args : List String
  readable_value_name : Option String
deriving DecidableEq

/-- `NLPStructuralField.nlp_recipe`, in declaration order. -/
def nlp_recipe : List Step :=
  [ ⟨"element", .whichElement, ["prompt"], none⟩,
    ⟨"element_name", .elementName, ["prompt", "element"], none⟩,
    ⟨"action", .actionF, ["prompt", "element", "element_name"], none⟩,
    ⟨"overall_direction", .overallDirection, ["prompt"], some "direction"⟩,
    ⟨"direction", .directionF, ["overall_direction"], none⟩,
    ⟨"amount", .amountF, ["action"], none⟩,
    ⟨"number_unit", .numberUnit, ["amount"], some "amount"⟩ ]

/-- `NLPStructuralField.parsed_items_to_discard`. -/
def parsed_items_to_discard : List String :=
  ["prompt", "action", "overall_direction", "amount", "number_unit"]

/-- `NLPField.discard_items`: keep only the entries whose key is not in
the discard list. -/
def discard_items (items : SlotSet) : SlotSet :=
  items.filter (fun kv => !(parsed_items_to_discard.contains kv.1))

/-- `NLPStructuralField.summary`: progressively longer description,
guarded by membership of `element`, `element_name`, `direction` and
`number` in that order; the final phrase reads `unit` without a guard,
a `KeyError` when `number` is present but `unit` is not. -/
def summary (parsed_items : SlotSet) : Except PyErr String :=
  match lookupKey parsed_items "element" with
  | none => .ok ""
  | some el =>
    match lookupKey parsed_items "element_name" with
    | none => .ok ("a " ++ render el)
    | some en =>
      match lookupKey parsed_items "direction" with
      | none => .ok ("a " ++ render el ++ " named " ++ render en)
      | some d =>
        match lookupKey parsed_items "number" with
        | none =>
          .ok ("a " ++ render el ++ " named " ++ render en
            ++ " is requested to be moved " ++ render d)
        | some n =>
          match lookupKey parsed_items "unit" with
          | none => .error .keyError
          | some u =>
            .ok ("a " ++ render el ++ " named " ++ render en
              ++ " is requested to be moved " ++ render d
              ++ " by " ++ render n ++ " " ++ render u)

/-- The fixed trailer of every failure message. -/
def on_fail_tail (item : String) : String :=
  "I could not understand which " ++ item
    ++ " you are talking about. Would you mind to rephrase it in a clear way for me and try again? Thanks in advance!"

/-- `NLPField.on_fail`: a plain apology when no parsed items are passed
(the default `None`, which the engine never uses), otherwise a summary
of what was understood, followed by the fixed trailer. -/
def on_fail (item : String) (parsed_items : Option SlotSet) : Except PyErr String :=
  match parsed_items with
  | none => .ok ("Sorry, " ++ on_fail_tail item)
  | some items =>
    match summary items with
    | .error e => .error e
    | .ok s => .ok ("Hey! I understood " ++ s ++ ". However, " ++ on_fail_tail item)

/-- `NLPStructuralField.on_success`. -/
def on_success (parsed_items : SlotSet) : Except PyErr String :=
  match summary parsed_items with
  | .error e => .error e
  | .ok s => .ok ("Hey! Perfect, I understood that " ++ s ++ ". Doing my job now!")

/-- `NLPField.parse_amount`: unpack the `number_unit` tuple into the
`number` and `unit` slots. -/
def parse_amount (items : SlotSet) : Except PyErr SlotSet :=
  match lookupKey items "number_unit" with
  | some (.pair q u) => .ok (setKey (setKey items "number" (.num q)) "unit" (.str u))
  | some _ => .error .typeError
  | none => .error .keyError

/-- Resolve argument slot names against the parsed items
(`[parsed_items[arg] for arg in args]`). -/
def resolveArgs (items : SlotSet) : List String → Except PyErr (List Value)
  | [] => .ok []
  | a :: rest =>
    match lookupKey items a with
    | none => .error .keyError
    | some v => (resolveArgs items rest).map (fun vs => v :: vs)

/-- `NLPStructuralField.process_one_step`: resolve the arguments, call
the extractor; on `None` attach the failure message under `answer`
(using the readable name when declared), otherwise store the value
under the step name. -/
def process_one_step (o : Oracle) (value_name : String) (parsed_items : SlotSet)
    (func : StepFunc) (args : List String) (readable_value_name : Option String) :
    Except PyErr SlotSet :=
  match resolveArgs parsed_items args with
  | .error e => .error e
  | .ok argVals =>
    match applyFunc o func argVals with
    | .error e => .error e
    | .ok none =>
      match on_fail (match readable_value_name with
          | none => value_name
          | some r => r) (some parsed_items) with
      | .error e => .error e
      | .ok msg => .ok (setKey parsed_items "answer" (.str msg))
    | .ok (some v) => .ok (setKey parsed_items value_name v)

/-- The step loop of `NLPStructuralField.process_prompt`: run the steps
in order; the flag is `false` when a step left no value under its name
(the early-return branch), `true` when all steps resolved. -/
def runLoop (o : Oracle) : List Step → SlotSet → Except PyErr (SlotSet × Bool)
  | [], items => .ok (items, true)
  | step :: rest, items =>
    match process_one_step o step.name items step.func step.args step.readable_value_name with
    | .error e => .error e
    | .ok items' =>
      if hasKey items' step.name = true then runLoop o rest items'
      else .ok (items', false)

/-- The initial parsed items of one `process_prompt` call. -/
def initItems (prompt : String) : SlotSet :=
  [("success", .bool false), ("prompt", .str prompt)]

/-- `NLPStructuralField.process_prompt`: run the recipe; on early
failure return the discarded items; on completion set `success`, split
the amount, discard the intermediate items and attach the success
narrative. -/
def process_prompt (o : Oracle) (prompt : String) : Except PyErr SlotSet :=
  match runLoop o nlp_recipe (initItems prompt) with
  | .error e => .error e
  | .ok (items, false) => .ok (discard_items items)
  | .ok (items, true) =>
    let items1 := setKey items "success" (.bool true)
    match parse_amount items1 with
    | .error e => .error e
    | .ok items2 =>
      let items3 := discard_items items2
      match on_success items3 with
      | .error e => .error e
      | .ok msg => .ok (setKey items3 "answer" (.str msg))

/-- The states of the parsed items observed after each successfully
resolved step of the loop (stopping at an exception or at the first
unresolved step). -/
def loopStates (o : Oracle) : List Step → SlotSet → List SlotSet
  | [], _ => []
  | step :: rest, items =>
    match process_one_step o step.name items step.func step.args step.readable_value_name with
    | .error _ => []
    | .ok items' =>
      if hasKey items' step.name then items' :: loopStates o rest items'
      else []

/-- Growth relation between successive observed slot-set states: the
size never decreases and every present key stays present. -/
def slotGrowth (a b : SlotSet) : Prop :=
  a.length ≤ b.length ∧ ∀ k, hasKey a k = true → hasKey b k = true

/-- A field as the dispatcher sees it: a relevance test and a
`process_prompt` entry point. -/
structure AgentField where
  found_inside : String → Bool
  process : String → Except PyErr SlotSet

/-- The field iteration of `NLPAgent.process_prompt`: first field whose
relevance test passes handles the prompt; `none` models the Python
`None` return when no field matches. -/
def field_loop (prompt : String) : List AgentField → Except PyErr (Option SlotSet)
  | [] => .ok none
  | f :: rest =>
    if f.found_inside prompt = true then (f.process prompt).map some
    else field_loop prompt rest

/-- `NLPAgent.process_prompt`: the global `"request"` relevance gate,
then the field iteration. -/
def agent_process_prompt (o : Oracle) (fields : List AgentField) (prompt : String) :
    Except PyErr (Option SlotSet) :=
  if o.zeroShot prompt "request" = false then
    .ok (some [("success", .bool false), ("answer", .str "Please, a request must be placed.")])
  else field_loop prompt fields

/-- `NLPAgent.setup_fields`: the structural field, then the MEP field.
The MEP field is a bare `NLPField`, which has no `process_prompt`
method, so invoking it raises `AttributeError`. -/
def setup_fields (o : Oracle) : List AgentField :=
  [ ⟨found_inside o "structural" [], process_prompt o⟩,
    ⟨found_inside o "MEP" ["mechanical", "electrical", "plumbing", "fire protection"],
      fun _ => .error .attributeError⟩ ]

/-- The end-to-end scenario prompt of the spec. -/
def promptC1 : String := "Please, lower by 0.2 m the height of beam B125"

/-- Capability outputs fixed as in the end-to-end success scenario. -/
def oracleSuccess : Oracle :=
  { zeroShot := fun _ _ => true
    zeroShotMultiple := fun _ labels => if labels = directions then "down" else "beam"
    questionAnswerer := fun q _ =>
      if q = "Which is the name of the beam?" then "B125"
      else if q = "What should we do with the beam B125?" then "lower by 0.2 m the height"
      else if q = "To where?" then "down"
      else "0.2 m" }

/-- The success scenario with the question answerer returning the empty
string for the element-name question. -/
def oracleFailName : Oracle :=
  { oracleSuccess with
    questionAnswerer := fun q c =>
      if q = "Which is the name of the beam?" then ""
      else oracleSuccess.questionAnswerer q c }

/-- Capability outputs under which the element step is unresolved: the
relevance check rejects every label. -/
def oracleFailElement : Oracle :=
  { zeroShot := fun _ _ => false
    zeroShotMultiple := fun _ _ => "beam"
    questionAnswerer := fun _ _ => "" }

/-- Capability outputs whose question answerer returns a single space
for every question. -/
def oracleWhitespace : Oracle :=
  { zeroShot := fun _ _ => true
    zeroShotMultiple := fun _ _ => "beam"
    questionAnswerer := fun _ _ => " " }

/-- Decidable equality for `Except`, by cases on the two
constructors. -/
def exceptDecEq {e a : Type} [DecidableEq e] [DecidableEq a] :
    (x y : Except e a) → Decidable (x = y)
  | .error u, .error v =>
    match decEq u v with
    | .isTrue h => .isTrue (h ▸ rfl)
    | .isFalse h => .isFalse (fun hc => h (Except.error.inj hc))
  | .ok u, .ok v =>
    match decEq u v with
    | .isTrue h => .isTrue (h ▸ rfl)
    | .isFalse h => .isFalse (fun hc => h (Except.ok.inj hc))
  | .error _, .ok _ => .isFalse (fun hc => Except.noConfusion hc)
  | .ok _, .error _ => .isFalse (fun hc => Except.noConfusion hc)

instance {e a : Type} [DecidableEq e] [DecidableEq a] : DecidableEq (Except e a) :=
  exceptDecEq

/-- The result of the end-to-end success scenario. -/
def resultC1 : SlotSet :=
  [ ("success", .bool true),
    ("element", .str "beam"),
    ("element_name", .str "B125"),
    ("direction", .str "down"),
    ("number", .num (mkFrac 1 5)),
    ("unit", .str "m"),
    ("answer", .str "Hey! Perfect, I understood that a beam named B125 is requested to be moved down by 0.2 m. Doing my job now!") ]


/-- The result of the early-failure scenario (empty element-name
answer). -/
def resultC2 : SlotSet :=
  [ ("success", .bool false),
    ("element", .str "beam"),
    ("answer", .str "Hey! I understood a beam. However, I could not understand which element_name you are talking about. Would you mind to rephrase it in a clear way for me and try again? Thanks in advance!") ]

/-- The failure answer produced when the first step (element) is
unresolved: the summary of the initial slot set is empty, so the
partial-narrative prefix frames an empty description. -/
def failFirstMsg : String :=
  "Hey! I understood . However, I could not understand which element you are talking about. Would you mind to rephrase it in a clear way for me and try again? Thanks in advance!"

set_option maxRecDepth 100000

/-- Setting a key makes it look up to the new value. -/
theorem lookupKey_setKey_self (items : SlotSet) (k : String) (v : Value) :
    lookupKey (setKey items k v) k = some v := by
  induction items with
  | nil => simp [setKey, lookupKey]
  | cons kv rest ih =>
    obtain ⟨k1, v1⟩ := kv
    by_cases h : k1 = k
    · simp [setKey, h, lookupKey]
    · simp [setKey, h, lookupKey, ih]

/-- Setting a key leaves every other key unchanged. -/
theorem lookupKey_setKey_ne (items : SlotSet) (k k1 : String) (v : Value) (h : k1 ≠ k) :
    lookupKey (setKey items k v) k1 = lookupKey items k1 := by
  induction items with
  | nil =>
    have hne : ¬ k = k1 := fun hc => h hc.symm
    simp [setKey, lookupKey, hne]
  | cons kv rest ih =>
    obtain ⟨k2, v2⟩ := kv
    by_cases h2 : k2 = k
    · subst h2
      simp [setKey, lookupKey, Ne.symm h]
    · simp [setKey, h2, lookupKey, ih]

/-- A key just set is present. -/
theorem hasKey_setKey_self (items : SlotSet) (k : String) (v : Value) :
    hasKey (setKey items k v) k = true := by
  simp [hasKey, lookupKey_setKey_self]

/-- Setting a key preserves the presence of every key. -/
theorem hasKey_setKey_of (items : SlotSet) (k k1 : String) (v : Value)
    (h : hasKey items k1 = true) : hasKey (setKey items k v) k1 = true := by
  by_cases hk : k1 = k
  · subst hk; exact hasKey_setKey_self items k1 v
  · unfold hasKey at h ⊢
    rw [lookupKey_setKey_ne items k k1 v hk]
    exact h

/-- A key present after a set was the set key or was already present. -/
theorem hasKey_of_setKey (items : SlotSet) (k k1 : String) (v : Value)
    (h : hasKey (setKey items k v) k1 = true) : k1 = k ∨ hasKey items k1 = true := by
  by_cases hk : k1 = k
  · exact Or.inl hk
  · unfold hasKey at h
    rw [lookupKey_setKey_ne items k k1 v hk] at h
    exact Or.inr h

/-- Setting a key never shrinks the dict. -/
theorem length_le_setKey (items : SlotSet) (k : String) (v : Value) :
    items.length ≤ (setKey items k v).length := by
  induction items with
  | nil => simp [setKey]
  | cons kv rest ih =>
    obtain ⟨k1, v1⟩ := kv
    by_cases h : k1 = k
    · simp [setKey, h]
    · simp only [setKey, if_neg h, List.length_cons]
      exact Nat.succ_le_succ ih

/-- The discard filter, one entry at a time. -/
theorem discard_cons (k1 : String) (v1 : Value) (rest : SlotSet) :
    discard_items ((k1, v1) :: rest)
      = if k1 ∈ parsed_items_to_discard then discard_items rest
        else (k1, v1) :: discard_items rest := by
  by_cases h : k1 ∈ parsed_items_to_discard
  · simp [discard_items, List.filter_cons, h]
  · simp [discard_items, List.filter_cons, h]

/-- Lookup after the discard: discarded names are gone, others unchanged. -/
theorem lookupKey_discard (items : SlotSet) (k : String) :
    lookupKey (discard_items items) k
      = if k ∈ parsed_items_to_discard then none else lookupKey items k := by
  induction items with
  | nil => simp [discard_items, lookupKey]
  | cons kv rest ih =>
    obtain ⟨k1, v1⟩ := kv
    rw [discard_cons]
    by_cases hf : k1 ∈ parsed_items_to_discard
    · rw [if_pos hf]
      by_cases hk : k1 = k
      · subst hk; simp [hf, ih]
      · simp [lookupKey, hk, ih]
    · rw [if_neg hf]
      by_cases hk : k1 = k
      · subst hk; simp [lookupKey, hf]
      · simp [lookupKey, hk, ih]

/-- Key presence after the discard. -/
theorem hasKey_discard (items : SlotSet) (k : String) :
    hasKey (discard_items items) k
      = if k ∈ parsed_items_to_discard then false else hasKey items k := by
  unfold hasKey
  rw [lookupKey_discard]
  by_cases hc : k ∈ parsed_items_to_discard
  · simp [hc]
  · simp [hc]

/-- A step that returns normally sets exactly one key: its own name (step resolved) or `answer` (step unresolved). -/
theorem process_one_step_ok {o : Oracle} {n : String} {items : SlotSet} {f : StepFunc}
    {a : List String} {r : Option String} {items' : SlotSet}
    (h : process_one_step o n items f a r = .ok items') :
    ∃ k v, (k = n ∨ k = "answer") ∧ items' = setKey items k v := by
  unfold process_one_step at h
  split at h
  · exact absurd h (by simp)
  · split at h
    · exact absurd h (by simp)
    · split at h
      · exact absurd h (by simp)
      · obtain rfl := Except.ok.inj h
        exact ⟨"answer", _, Or.inr rfl, rfl⟩
    · obtain rfl := Except.ok.inj h
      exact ⟨n, _, Or.inl rfl, rfl⟩

/-- Invariants of the step loop: present keys stay present, new keys are step names or `answer`, and an early exit has stored a failure `answer`. -/
theorem runLoop_props (o : Oracle) :
    ∀ (steps : List Step) (items items' : SlotSet) (flag : Bool),
      runLoop o steps items = .ok (items', flag) →
      ((∀ k, hasKey items k = true → hasKey items' k = true) ∧
       (∀ k, hasKey items' k = true →
          hasKey items k = true ∨ k ∈ steps.map Step.name ∨ k = "answer") ∧
       (flag = false → hasKey items' "answer" = true)) := by
  intro steps
  induction steps with
  | nil =>
    intro items items' flag h
    simp only [runLoop] at h
    obtain ⟨rfl, rfl⟩ := Prod.mk.injEq .. ▸ Except.ok.inj h
    exact ⟨fun k hk => hk, fun k hk => Or.inl hk, by simp⟩
  | cons step rest ih =>
    intro items items' flag h
    simp only [runLoop] at h
    cases hstep : process_one_step o step.name items step.func step.args step.readable_value_name with
    | error e => rw [hstep] at h; exact absurd h (by simp)
    | ok it1 =>
      rw [hstep] at h
      dsimp only at h
      obtain ⟨kk, vv, hkk, rfl⟩ := process_one_step_ok hstep
      by_cases hname : hasKey (setKey items kk vv) step.name = true
      · rw [if_pos hname] at h
        obtain ⟨ih1, ih2, ih3⟩ := ih _ items' flag h
        refine ⟨?_, ?_, ih3⟩
        · intro k hk
          exact ih1 k (hasKey_setKey_of items kk k vv hk)
        · intro k hk
          rcases ih2 k hk with h1 | h2 | h3
          · rcases hasKey_of_setKey items kk k vv h1 with rfl | hmem
            · rcases hkk with rfl | rfl
              · exact Or.inr (Or.inl (by simp))
              · exact Or.inr (Or.inr rfl)
            · exact Or.inl hmem
          · exact Or.inr (Or.inl (by simp [h2]))
          · exact Or.inr (Or.inr h3)
      · rw [if_neg hname] at h
        obtain ⟨rfl, rfl⟩ := Prod.mk.injEq .. ▸ Except.ok.inj h
        refine ⟨?_, ?_, ?_⟩
        · intro k hk
          exact hasKey_setKey_of items kk k vv hk
        · intro k hk
          rcases hasKey_of_setKey items kk k vv hk with rfl | hmem
          · rcases hkk with rfl | rfl
            · exact Or.inr (Or.inl (by simp))
            · exact Or.inr (Or.inr rfl)
          · exact Or.inl hmem
        · intro _
          rcases hkk with rfl | rfl
          · exact absurd (hasKey_setKey_self items step.name vv) hname
          · exact hasKey_setKey_self items "answer" vv

/-- A successful `parse_amount` only adds the `number` and `unit` slots. -/
theorem parse_amount_ok {items items' : SlotSet} (h : parse_amount items = .ok items') :
    ∃ q u, items' = setKey (setKey items "number" (.num q)) "unit" (.str u) := by
  unfold parse_amount at h
  split at h
  · obtain rfl := Except.ok.inj h
    exact ⟨_, _, rfl⟩
  · exact absurd h (by simp)
  · exact absurd h (by simp)

/-- The initial parsed items hold exactly `success` and `prompt`. -/
theorem hasKey_initItems {prompt k} (h : hasKey (initItems prompt) k = true) :
    k = "success" ∨ k = "prompt" := by
  by_cases h1 : k = "success"
  · exact Or.inl h1
  · by_cases h2 : k = "prompt"
    · exact Or.inr h2
    · exfalso
      have e1 : ¬ ("success" = k) := fun hc => h1 hc.symm
      have e2 : ¬ ("prompt" = k) := fun hc => h2 hc.symm
      simp [initItems, hasKey, lookupKey, e1, e2] at h

/-- The slot names of the structural recipe, in order. -/
theorem recipe_names :
    nlp_recipe.map Step.name
      = ["element", "element_name", "action", "overall_direction", "direction",
         "amount", "number_unit"] := by
  decide

/-- Every normal `process_prompt` result is the discard of a slot set whose keys are the engine keys, possibly with a final `answer` added. -/
theorem process_prompt_ok_shape {o : Oracle} {prompt : String} {R : SlotSet}
    (h : process_prompt o prompt = .ok R) :
    ∃ X, (∀ k, hasKey X k = true →
            k ∈ (["success", "prompt", "element", "element_name", "action",
                  "overall_direction", "direction", "amount", "number_unit",
                  "answer", "number", "unit"] : List String)) ∧
         hasKey X "success" = true ∧
         ((R = discard_items X ∧ hasKey X "answer" = true) ∨
          ∃ m, R = setKey (discard_items X) "answer" (.str m)) := by
  unfold process_prompt at h
  cases hloop : runLoop o nlp_recipe (initItems prompt) with
  | error e => rw [hloop] at h; exact absurd h (by simp)
  | ok p =>
    obtain ⟨items, flag⟩ := p
    rw [hloop] at h
    obtain ⟨l1, l2, l3⟩ := runLoop_props o nlp_recipe (initItems prompt) items flag hloop
    have hsucc : hasKey items "success" = true :=
      l1 "success" (by simp [initItems, hasKey, lookupKey])
    have hkeys : ∀ k, hasKey items k = true →
        k ∈ (["success", "prompt", "element", "element_name", "action",
              "overall_direction", "direction", "amount", "number_unit",
              "answer", "number", "unit"] : List String) := by
      intro k hk
      rcases l2 k hk with h1 | h2 | h3
      · rcases hasKey_initItems h1 with rfl | rfl
        · simp
        · simp
      · rw [recipe_names] at h2
        simp at h2
        rcases h2 with rfl | rfl | rfl | rfl | rfl | rfl | rfl <;> simp
      · subst h3; simp
    cases flag with
    | false =>
      dsimp only at h
      obtain rfl := Except.ok.inj h
      exact ⟨items, hkeys, hsucc, Or.inl ⟨rfl, l3 rfl⟩⟩
    | true =>
      dsimp only at h
      cases hpa : parse_amount (setKey items "success" (.bool true)) with
      | error e => rw [hpa] at h; exact absurd h (by simp)
      | ok items2 =>
        rw [hpa] at h
        dsimp only at h
        obtain ⟨q, u, rfl⟩ := parse_amount_ok hpa
        cases hos : on_success (discard_items
            (setKey (setKey (setKey items "success" (.bool true)) "number" (.num q)) "unit" (.str u))) with
        | error e => rw [hos] at h; exact absurd h (by simp)
        | ok msg =>
          rw [hos] at h
          dsimp only at h
          obtain rfl := Except.ok.inj h
          refine ⟨_, ?_, ?_, Or.inr ⟨msg, rfl⟩⟩
          · intro k hk
            rcases hasKey_of_setKey _ _ _ _ hk with rfl | hk2
            · simp
            · rcases hasKey_of_setKey _ _ _ _ hk2 with rfl | hk3
              · simp
              · rcases hasKey_of_setKey _ _ _ _ hk3 with rfl | hk4
                · simp
                · exact hkeys k hk4
          · exact hasKey_setKey_of _ _ _ _ (hasKey_setKey_of _ _ _ _
              (hasKey_setKey_self items "success" (.bool true)))

/-- Adding `answer` does not affect the presence of other keys. -/
theorem hasKey_setKey_answer_of_ne {items : SlotSet} {k : String} (v : Value)
    (hne : k ≠ "answer") :
    hasKey (setKey items "answer" v) k = hasKey items k := by
  unfold hasKey
  rw [lookupKey_setKey_ne items "answer" k v hne]

/-- Key inventory of every normal `process_prompt` result: no discarded names, `success` and `answer` present, and only public names remain. -/
theorem process_prompt_result_keys {o : Oracle} {prompt : String} {R : SlotSet}
    (h : process_prompt o prompt = .ok R) :
    (∀ k, k ∈ parsed_items_to_discard → hasKey R k = false) ∧
    hasKey R "success" = true ∧
    hasKey R "answer" = true ∧
    (∀ k, hasKey R k = true →
       k ∈ (["success", "element", "element_name", "direction", "number",
             "unit", "answer"] : List String)) := by
  obtain ⟨X, hXkeys, hXsucc, hR⟩ := process_prompt_ok_shape h
  have hd : ∀ k, k ∈ parsed_items_to_discard → hasKey (discard_items X) k = false := by
    intro k hk
    rw [hasKey_discard, if_pos hk]
  have hdk : ∀ k, hasKey (discard_items X) k = true →
      k ∈ (["success", "element", "element_name", "direction", "number",
            "unit", "answer"] : List String) := by
    intro k hk
    rw [hasKey_discard] at hk
    by_cases hmem : k ∈ parsed_items_to_discard
    · rw [if_pos hmem] at hk; exact absurd hk (by simp)
    · rw [if_neg hmem] at hk
      have := hXkeys k hk
      simp at this
      simp only [parsed_items_to_discard] at hmem
      simp at hmem
      obtain ⟨m1, m2, m3, m4, m5⟩ := hmem
      rcases this with rfl | rfl | rfl | rfl | rfl | rfl | rfl | rfl | rfl | rfl | rfl | rfl <;>
        simp_all
  rcases hR with ⟨rfl, hXans⟩ | ⟨m, rfl⟩
  · refine ⟨hd, ?_, ?_, hdk⟩
    · rw [hasKey_discard, if_neg (by decide)]; exact hXsucc
    · rw [hasKey_discard, if_neg (by decide)]; exact hXans
  · refine ⟨?_, ?_, ?_, ?_⟩
    · intro k hk
      have hne : k ≠ "answer" := by
        simp only [parsed_items_to_discard] at hk
        simp at hk
        rcases hk with rfl | rfl | rfl | rfl | rfl <;> decide
      rw [hasKey_setKey_answer_of_ne _ hne]
      exact hd k hk
    · rw [hasKey_setKey_answer_of_ne _ (by decide)]
      rw [hasKey_discard, if_neg (by decide)]; exact hXsucc
    · exact hasKey_setKey_self _ "answer" _
    · intro k hk
      rcases hasKey_of_setKey _ _ _ _ hk with rfl | hk2
      · simp
      · exact hdk k hk2

/-- Along the observed loop states, the slot set only grows: sizes are non-decreasing and keys are never removed. -/
theorem loopStates_chain (o : Oracle) :
    ∀ (steps : List Step) (items : SlotSet),
      List.Chain' slotGrowth (items :: loopStates o steps items) := by
  intro steps
  induction steps with
  | nil => intro items; simp [loopStates]
  | cons step rest ih =>
    intro items
    unfold loopStates
    cases hstep : process_one_step o step.name items step.func step.args step.readable_value_name with
    | error e => simp
    | ok items' =>
      dsimp only
      by_cases hname : hasKey items' step.name = true
      · rw [if_pos hname]
        rw [List.chain'_cons]
        refine ⟨?_, ih items'⟩
        obtain ⟨kk, vv, hkk, rfl⟩ := process_one_step_ok hstep
        exact ⟨length_le_setKey items kk vv, fun k hk => hasKey_setKey_of items kk k vv hk⟩
      · rw [if_neg hname]
        simp

/-- A key present when the loop starts is present in every observed loop state. -/
theorem loopStates_hasKey (o : Oracle) :
    ∀ (steps : List Step) (items : SlotSet) (k : String),
      hasKey items k = true →
      ∀ s ∈ loopStates o steps items, hasKey s k = true := by
  intro steps
  induction steps with
  | nil => intro items k _ s hs; simp [loopStates] at hs
  | cons step rest ih =>
    intro items k hk s hs
    unfold loopStates at hs
    cases hstep : process_one_step o step.name items step.func step.args step.readable_value_name with
    | error e => rw [hstep] at hs; simp at hs
    | ok items' =>
      rw [hstep] at hs
      dsimp only at hs
      obtain ⟨kk, vv, hkk, rfl⟩ := process_one_step_ok hstep
      by_cases hname : hasKey (setKey items kk vv) step.name = true
      · rw [if_pos hname] at hs
        rcases List.mem_cons.mp hs with rfl | hs2
        · exact hasKey_setKey_of items kk k vv hk
        · exact ih _ k (hasKey_setKey_of items kk k vv hk) s hs2
      · rw [if_neg hname] at hs
        simp at hs

/-- The dispatcher field iteration returns the result of the first field whose relevance test passes. -/
theorem field_loop_find (prompt : String) :
    ∀ fields : List AgentField,
      field_loop prompt fields
        = match fields.find? (fun g => g.found_inside prompt) with
          | some f => (f.process prompt).map some
          | none => .ok none := by
  intro fields
  induction fields with
  | nil => simp [field_loop]
  | cons f rest ih =>
    unfold field_loop
    cases hf : f.found_inside prompt
    · rw [if_neg (by simp [hf])]
      rw [ih]
      have hfind : List.find? (fun g => g.found_inside prompt) (f :: rest)
          = List.find? (fun g => g.found_inside prompt) rest := by
        simp [List.find?, hf]
      rw [hfind]
    · rw [if_pos rfl]
      have hfind : List.find? (fun g => g.found_inside prompt) (f :: rest) = some f := by
        simp [List.find?, hf]
      rw [hfind]

/-- Claim C1: for the prompt "Please, lower by 0.2 m the height of beam B125" with the classifier and question answerer fixed to the scenario outputs, `process_prompt` returns success, element "beam", element_name "B125", direction "down", number 0.2, unit "m" and exactly the stated confirmation answer. -/
theorem claim_C1 :
    process_prompt oracleSuccess promptC1 = .ok
      [ ("success", .bool true),
        ("element", .str "beam"),
        ("element_name", .str "B125"),
        ("direction", .str "down"),
        ("number", .num (mkFrac 1 5)),
        ("unit", .str "m"),
        ("answer", .str "Hey! Perfect, I understood that a beam named B125 is requested to be moved down by 0.2 m. Doing my job now!") ] := by
  decide

/-- Claim C2, counterexample: with the question answerer returning the empty string for the element-name question, the result `answer` is not the claimed plain "Sorry, ..." message (the element slot already exists, so the engine prefixes the partial summary). -/
theorem claim_C2_counterexample :
    process_prompt oracleFailName promptC1 = .ok resultC2
    ∧ lookupKey resultC2 "answer"
        ≠ some (.str "Sorry, I could not understand which element_name you are talking about. Would you mind to rephrase it in a clear way for me and try again? Thanks in advance!") := by
  decide

/-- Claim C2, amended: with the question answerer returning the empty string for the element-name question, `process_prompt` returns success `false`, the answer "Hey! I understood a beam. However, I could not understand which element_name you are talking about. ..." followed by the rephrase request, and none of the keys `element_name`, `direction`, `number`, `unit`. -/
theorem claim_C2_amended :
    process_prompt oracleFailName promptC1 = .ok resultC2
    ∧ lookupKey resultC2 "success" = some (.bool false)
    ∧ lookupKey resultC2 "answer"
        = some (.str "Hey! I understood a beam. However, I could not understand which element_name you are talking about. Would you mind to rephrase it in a clear way for me and try again? Thanks in advance!")
    ∧ hasKey resultC2 "element_name" = false
    ∧ hasKey resultC2 "direction" = false
    ∧ hasKey resultC2 "number" = false
    ∧ hasKey resultC2 "unit" = false := by
  decide

/-- Claim C3, counterexample: the result of the success scenario does not contain the key `prompt` — `prompt` is itself in the discard list, contradicting the claim that callers see `prompt`. -/
theorem claim_C3_counterexample :
    process_prompt oracleSuccess promptC1 = .ok resultC1
    ∧ hasKey resultC1 "prompt" = false := by
  decide

/-- Claim C3, amended: for every oracle and prompt, a normal result contains `success` and `answer`, contains none of the discarded names (`prompt`, `action`, `overall_direction`, `amount`, `number_unit`), and contains otherwise only the final domain slots `element`, `element_name`, `direction`, `number`, `unit`. -/
theorem claim_C3_amended (o : Oracle) (prompt : String) (R : SlotSet)
    (h : process_prompt o prompt = .ok R) :
    hasKey R "success" = true ∧ hasKey R "answer" = true ∧
    (∀ k, k ∈ parsed_items_to_discard → hasKey R k = false) ∧
    (∀ k, hasKey R k = true →
       k ∈ (["success", "element", "element_name", "direction", "number",
             "unit", "answer"] : List String)) := by
  obtain ⟨h1, h2, h3, h4⟩ := process_prompt_result_keys h
  exact ⟨h2, h3, h1, h4⟩

/-- Claim C3 witness: the amended theorem applied to the concrete success scenario. -/
theorem claim_C3_witness :
    hasKey resultC1 "prompt" = false ∧ hasKey resultC1 "success" = true := by
  have h := claim_C3_amended oracleSuccess promptC1 resultC1 (by decide)
  exact ⟨h.2.2.1 "prompt" (by decide), h.1⟩

/-- Claim C4: `amount_breakdown` on "0.2m", "1 m", "-3.5ft", "5" and "one meter" — the first four parse to the stated number and unit ("5" taking the default unit "m"), and "one meter" is unresolved because it has no digit even though it has unit-like letters. -/
theorem claim_C4 :
    amount_breakdown "0.2m" = some (mkFrac 1 5, "m")
    ∧ amount_breakdown "1 m" = some (mkFrac 1 1, "m")
    ∧ amount_breakdown "-3.5ft" = some (mkFrac (-7) 2, "ft")
    ∧ amount_breakdown "5" = some (mkFrac 5 1, "m")
    ∧ amount_breakdown "one meter" = none
    ∧ (∀ c, c ∈ "one meter".data → pyIsDigit c = false)
    ∧ pyIsAlpha 'm' = true := by
  decide

/-- Claim C5, counterexample: when the very first step (element) fails with no slots extracted, the failure answer still carries the partial-narrative prefix "Hey! I understood . However, ..." and is not the plain "Sorry, ..." form the claim describes. -/
theorem claim_C5_counterexample :
    process_prompt oracleFailElement promptC1
      = .ok [("success", .bool false), ("answer", .str failFirstMsg)]
    ∧ failFirstMsg
        ≠ "Sorry, I could not understand which element you are talking about. Would you mind to rephrase it in a clear way for me and try again? Thanks in advance!" := by
  decide

/-- Claim C5, amended: the engine always passes the current slot set to `on_fail`, so even a first-step failure produces the prefixed "Hey! I understood . However, ..." message; the plain "Sorry, ..." form arises only when `on_fail` is called without parsed items, which the engine never does. -/
theorem claim_C5_amended (o : Oracle) (prompt : String)
    (h : o.zeroShot prompt (o.zeroShotMultiple prompt elements) = false) :
    process_prompt o prompt
      = .ok [("success", .bool false), ("answer", .str failFirstMsg)]
    ∧ on_fail "element" none = .ok ("Sorry, " ++ on_fail_tail "element") := by
  refine ⟨?_, rfl⟩
  have hwe : which_element o prompt = none := by
    unfold which_element
    rw [h]
    simp
  simp +decide [process_prompt, runLoop, nlp_recipe, process_one_step, resolveArgs,
    applyFunc, hwe, initItems, lookupKey, hasKey, on_fail, summary, render,
    discard_items, setKey, on_fail_tail, failFirstMsg, Except.map, Option.map]

/-- Claim C5 witness: the amended theorem applied to an oracle whose relevance check rejects every label. -/
theorem claim_C5_witness :
    process_prompt oracleFailElement promptC1
      = .ok [("success", .bool false), ("answer", .str failFirstMsg)] :=
  (claim_C5_amended oracleFailElement promptC1 rfl).1

/-- Claim C6, counterexample: on a slot mapping with `element`, `element_name`, `direction` and `number` but no `unit`, `summary` raises `KeyError` instead of appending a phrase or stopping, because the last phrase reads `unit` without a membership check. -/
theorem claim_C6_counterexample :
    summary [("element", .str "beam"), ("element_name", .str "B125"),
             ("direction", .str "down"), ("number", .num (mkFrac 1 5))]
      = .error .keyError := by
  decide

/-- Claim C6, amended: the concrete summaries of the claim hold, and `summary` checks `element`, `element_name`, `direction`, `number` in this fixed order, stopping at the first absent key and never including a later field; when `number` is present the unguarded `unit` access returns the full sentence if `unit` is present and raises `KeyError` otherwise. -/
theorem claim_C6_amended :
    summary [] = .ok ""
    ∧ summary [("element", .str "beam")] = .ok "a beam"
    ∧ summary [("element", .str "beam"), ("element_name", .str "B125")]
        = .ok "a beam named B125"
    ∧ (∀ items, lookupKey items "element" = none → summary items = .ok "")
    ∧ (∀ items e, lookupKey items "element" = some e →
         lookupKey items "element_name" = none →
         summary items = .ok ("a " ++ render e))
    ∧ (∀ items e n, lookupKey items "element" = some e →
         lookupKey items "element_name" = some n →
         lookupKey items "direction" = none →
         summary items = .ok ("a " ++ render e ++ " named " ++ render n))
    ∧ (∀ items e n d, lookupKey items "element" = some e →
         lookupKey items "element_name" = some n →
         lookupKey items "direction" = some d →
         lookupKey items "number" = none →
         summary items = .ok ("a " ++ render e ++ " named " ++ render n
           ++ " is requested to be moved " ++ render d))
    ∧ (∀ items e n d q, lookupKey items "element" = some e →
         lookupKey items "element_name" = some n →
         lookupKey items "direction" = some d →
         lookupKey items "number" = some q →
         lookupKey items "unit" = none →
         summary items = .error .keyError)
    ∧ (∀ items e n d q u, lookupKey items "element" = some e →
         lookupKey items "element_name" = some n →
         lookupKey items "direction" = some d →
         lookupKey items "number" = some q →
         lookupKey items "unit" = some u →
         summary items = .ok ("a " ++ render e ++ " named " ++ render n
           ++ " is requested to be moved " ++ render d
           ++ " by " ++ render q ++ " " ++ render u)) := by
  refine ⟨by decide, by decide, by decide, ?_, ?_, ?_, ?_, ?_, ?_⟩
  · intro items h1
    unfold summary
    rw [h1]
  · intro items e h1 h2
    unfold summary
    rw [h1, h2]
  · intro items e n h1 h2 h3
    unfold summary
    rw [h1, h2, h3]
  · intro items e n d h1 h2 h3 h4
    unfold summary
    rw [h1, h2, h3, h4]
  · intro items e n d q h1 h2 h3 h4 h5
    unfold summary
    rw [h1, h2, h3, h4, h5]
  · intro items e n d q u h1 h2 h3 h4 h5
    unfold summary
    rw [h1, h2, h3, h4, h5]

/-- Claim C6 witness: the amended theorem applied to a mapping without `element`. -/
theorem claim_C6_witness : summary [("success", .bool false)] = .ok "" :=
  claim_C6_amended.2.2.2.1 [("success", .bool false)] (by decide)

/-- Claim C7: the dispatcher returns the fixed generic failure without consulting any field when the prompt fails the "request" relevance gate (the result is the same for every field list), otherwise returns verbatim the result of the first field in declared order whose relevance test passes, and returns the null result when the gate passes but no field matches. -/
theorem claim_C7 (o : Oracle) (fields : List AgentField) (prompt : String) :
    (o.zeroShot prompt "request" = false →
       agent_process_prompt o fields prompt
         = .ok (some [("success", .bool false),
                      ("answer", .str "Please, a request must be placed.")]))
    ∧ (o.zeroShot prompt "request" = true → ∀ f,
         fields.find? (fun g => g.found_inside prompt) = some f →
         agent_process_prompt o fields prompt = (f.process prompt).map some)
    ∧ (o.zeroShot prompt "request" = true →
         fields.find? (fun g => g.found_inside prompt) = none →
         agent_process_prompt o fields prompt = .ok none) := by
  refine ⟨?_, ?_, ?_⟩
  · intro h
    unfold agent_process_prompt
    rw [h]
    rw [if_pos rfl]
  · intro h f hf
    unfold agent_process_prompt
    rw [h, if_neg (by simp)]
    rw [field_loop_find, hf]
  · intro h hf
    unfold agent_process_prompt
    rw [h, if_neg (by simp)]
    rw [field_loop_find, hf]

/-- Claim C7 witness: the gate clause applied to an oracle that rejects every relevance check. -/
theorem claim_C7_witness :
    agent_process_prompt oracleFailElement [] promptC1
      = .ok (some [("success", .bool false),
                   ("answer", .str "Please, a request must be placed.")]) :=
  (claim_C7 oracleFailElement [] promptC1).1 rfl

/-- Claim C8: the element step yields exactly the argmax label over the fixed element vocabulary when that label independently passes the relevance check against the prompt, and is unresolved exactly when the check fails. -/
theorem claim_C8 (o : Oracle) (prompt : String) :
    (∀ l, which_element o prompt = some l ↔
       (l = o.zeroShotMultiple prompt elements ∧ o.zeroShot prompt l = true))
    ∧ (which_element o prompt = none ↔
       o.zeroShot prompt (o.zeroShotMultiple prompt elements) = false) := by
  constructor
  · intro l
    constructor
    · intro h
      unfold which_element at h
      by_cases hz : o.zeroShot prompt (o.zeroShotMultiple prompt elements) = true
      · rw [if_pos hz] at h
        have he := Option.some.inj h
        exact ⟨he.symm, he ▸ hz⟩
      · rw [if_neg hz] at h
        exact absurd h (by simp)
    · rintro ⟨rfl, hl⟩
      unfold which_element
      rw [if_pos hl]
  · constructor
    · intro h
      unfold which_element at h
      by_cases hz : o.zeroShot prompt (o.zeroShotMultiple prompt elements) = true
      · rw [if_pos hz] at h
        exact absurd h (by simp)
      · cases hb : o.zeroShot prompt (o.zeroShotMultiple prompt elements)
        · rfl
        · exact absurd hb hz
    · intro h
      unfold which_element
      rw [if_neg (by rw [h]; simp)]

/-- Claim C8 witness: the characterisation applied to an oracle that accepts the argmax label. -/
theorem claim_C8_witness : which_element oracleWhitespace "x" = some "beam" :=
  ((claim_C8 oracleWhitespace "x").1 "beam").mpr ⟨rfl, rfl⟩

/-- Claim C9: for every oracle and prompt, the observed slot-set states grow monotonically along the step loop (sizes non-decreasing, keys never removed, `prompt` still present in every loop state), and the discard happens only after the loop: the returned mapping is free of every discarded name. -/
theorem claim_C9 (o : Oracle) (prompt : String) :
    List.Chain' slotGrowth (initItems prompt :: loopStates o nlp_recipe (initItems prompt))
    ∧ (∀ s ∈ loopStates o nlp_recipe (initItems prompt), hasKey s "prompt" = true)
    ∧ (∀ R, process_prompt o prompt = .ok R →
         ∀ k, k ∈ parsed_items_to_discard → hasKey R k = false) := by
  refine ⟨loopStates_chain o nlp_recipe (initItems prompt), ?_, ?_⟩
  · intro s hs
    exact loopStates_hasKey o nlp_recipe (initItems prompt) "prompt"
      (by simp [initItems, hasKey, lookupKey]) s hs
  · intro R hR k hk
    exact (process_prompt_result_keys hR).1 k hk

/-- Claim C9 witness: the discard clause applied to the concrete success scenario. -/
theorem claim_C9_witness : hasKey resultC1 "prompt" = false :=
  (claim_C9 oracleSuccess promptC1).2.2 resultC1 (by decide) "prompt" (by decide)

/-- Claim C10: `element_name` is unresolved exactly when the question answer is the empty string; a non-empty answer whose whitespace split has no token reaches the `IndexError` branch instead. -/
theorem claim_C10 (o : Oracle) (prompt element : String) :
    (element_name o prompt element = .ok none ↔
       o.questionAnswerer ("Which is the name of the " ++ element ++ "?") prompt = "")
    ∧ (o.questionAnswerer ("Which is the name of the " ++ element ++ "?") prompt ≠ "" →
       pySplit (o.questionAnswerer ("Which is the name of the " ++ element ++ "?") prompt) = [] →
       element_name o prompt element = .error .indexError) := by
  constructor
  · constructor
    · intro h
      unfold element_name at h
      by_cases hz : o.questionAnswerer ("Which is the name of the " ++ element ++ "?") prompt = ""
      · exact hz
      · rw [if_neg hz] at h
        exfalso
        cases hs : pySplit (o.questionAnswerer ("Which is the name of the " ++ element ++ "?") prompt) with
        | nil => rw [hs] at h; exact absurd h (by simp)
        | cons t rest => rw [hs] at h; exact absurd h (by simp)
    · intro h
      unfold element_name
      rw [if_pos h]
  · intro h1 h2
    unfold element_name
    rw [if_neg h1, h2]

/-- Claim C10 witness: a whitespace-only answer indeed raises `IndexError`. -/
theorem claim_C10_witness :
    element_name oracleWhitespace "x" "beam" = .error .indexError :=
  (claim_C10 oracleWhitespace "x" "beam").2 (by decide) (by decide)

end NLP
